import Mathlib

/-!
A shallow embedding of the speed-estimation core of `speed_estimation.py`
(`SpeedEstimator.estimate_speed` and `SpeedEstimator.save_speeds_to_file`),
together with the external geometric collaborators it relies on, and proofs
of the specification claims about it.

Conventions of the embedding:
* pixel coordinates and wall-clock times are rationals;
* the wall-clock reads `time()` inside one frame are modelled by a single
  `now` value attached to the frame;
* the per-track dictionaries (`spd`, `trk_pt`, `trk_pp`, track history) are
  modelled as `Option`-valued functions on track ids, and the membership
  tests (`track_id not in self.trk_pt`, …) as `= none` tests;
* a tracker detection supplies the track id, the class index and the current
  centroid position (`self.track_line[-1]` after `store_tracking_history`).
-/

namespace SpeedEst

attribute [local semireducible] Rat.mul Rat.add Rat.sub Rat.inv Rat.ofScientific

/-- A point in frame pixel coordinates, `(x, y)`, as a pair of rationals. -/
abbrev Point : Type := ℚ × ℚ

/-- The reference region `self.r_s`: an ordered pair of 2D points defining a
line segment in frame pixel coordinates. -/
abbrev Seg : Type := Point × Point

/-- Modelled from the spec: the signed-area orientation test that underlies
the external geometry library's segment-intersection predicate. -/
def orient (a b c : Point) : ℚ :=
  (b.1 - a.1) * (c.2 - a.2) - (b.2 - a.2) * (c.1 - a.1)

/-- The value `b` lies between `a` and `c` (in either order). -/
def between (a b c : ℚ) : Bool :=
  (decide (a ≤ b) && decide (b ≤ c)) || (decide (c ≤ b) && decide (b ≤ a))

/-- Modelled from the spec: given that `q` is collinear with the segment
`p`–`r`, decide whether `q` lies on that segment (bounding-box test). -/
def onSeg (p q r : Point) : Bool :=
  between p.1 q.1 r.1 && between p.2 q.2 r.2

/-- The absolute value `np.abs`, written so that it evaluates on `ℚ`. -/
def ratAbs (v : ℚ) : ℚ :=
  if v < 0 then -v else v

/-- Modelled from the spec: the crossing predicate supplied by the external
geometry library (`LineString([prev, curr]).intersects(self.r_s)`): standard
segment–segment intersection, where shared endpoints and collinear overlap
count as intersecting, and a zero-length segment intersects exactly when the
point lies on the region segment. -/
def segIntersects (p1 p2 : Point) (r : Seg) : Bool :=
  ((decide (0 < orient r.1 r.2 p1) && decide (orient r.1 r.2 p2 < 0) ||
    decide (orient r.1 r.2 p1 < 0) && decide (0 < orient r.1 r.2 p2)) &&
   (decide (0 < orient p1 p2 r.1) && decide (orient p1 p2 r.2 < 0) ||
    decide (orient p1 p2 r.1 < 0) && decide (0 < orient p1 p2 r.2))) ||
  (decide (orient r.1 r.2 p1 = 0) && onSeg r.1 p1 r.2) ||
  (decide (orient r.1 r.2 p2 = 0) && onSeg r.1 p2 r.2) ||
  (decide (orient p1 p2 r.1 = 0) && onSeg p1 r.1 p2) ||
  (decide (orient p1 p2 r.2 = 0) && onSeg p1 r.2 p2)

/-- One detection handed to the loop of `estimate_speed` by the external
tracker: a track id, a class index, and the current centroid position
(the last point of the track history for that id on this frame). -/
structure Detection where
  track_id : ℕ
  cls : ℕ
  pos : Point
deriving DecidableEq

/-- One processed frame: the wall-clock time at which it is processed and
the list of detections produced by the tracker for the frame. -/
structure Frame where
  now : ℚ
  dets : List Detection
deriving DecidableEq

/-- The mutable state of a `SpeedEstimator` object, as set up in
`SpeedEstimator.__init__`:
`spd` (speed data per id), `trkd_ids` (ids already speed-estimated),
`trk_pt` (previous timestamp per id), `trk_pp` (previous position per id),
`track_hist` (track history per id), and `speeds` (the run-long list of
`(vehicle_type, speed)` samples). -/
structure EstState where
  spd : ℕ → Option ℚ
  trkd_ids : List ℕ
  trk_pt : ℕ → Option ℚ
  trk_pp : ℕ → Option Point
  track_hist : ℕ → List Point
  speeds : List (String × ℚ)

/-- The state right after `SpeedEstimator.__init__`: all maps empty. -/
def initState : EstState :=
  { spd := fun _ => none
    trkd_ids := []
    trk_pt := fun _ => none
    trk_pp := fun _ => none
    track_hist := fun _ => []
    speeds := [] }

/-- Pointwise update of a map on track ids (a dictionary write). -/
def setMap {α : Type} (m : ℕ → α) (k : ℕ) (v : α) : ℕ → α :=
  fun i => if i = k then v else m i

/-- Lines 80–81 of `estimate_speed`: `if track_id not in self.trk_pt:
self.trk_pt[track_id] = 0`. The previous-timestamp map after this
conditional initialization. -/
def initPT (pt : ℕ → Option ℚ) (id : ℕ) : ℕ → Option ℚ :=
  if pt id = none then setMap pt id (some 0) else pt

/-- Lines 82–83 of `estimate_speed`: `if track_id not in self.trk_pp:
self.trk_pp[track_id] = self.track_line[-1]`. The previous-position map
after this conditional initialization. -/
def initPP (pp : ℕ → Option Point) (id : ℕ) (cur : Point) : ℕ → Option Point :=
  if pp id = none then setMap pp id (some cur) else pp

/-- The value `self.trk_pt[track_id]` read by the loop body after the
conditional initialization of lines 80–81. -/
def storedPT (s : EstState) (id : ℕ) : ℚ :=
  ((initPT s.trk_pt id) id).getD 0

/-- The value `self.trk_pp[track_id]` read by the loop body after the
conditional initialization of lines 82–83 (`cur` is the current position
`self.track_line[-1]`). -/
def storedPP (s : EstState) (id : ℕ) (cur : Point) : Point :=
  ((initPP s.trk_pp id cur) id).getD cur

/-- Python `int()` applied to a rational: truncation toward zero. -/
def pyInt (v : ℚ) : ℤ :=
  if 0 ≤ v then v.floor else -(-v).floor

/-- The label text `f"{int(self.spd[track_id])} km/h"` shown once a speed
exists for the id. -/
def speedText (v : ℚ) : String :=
  toString (pyInt v) ++ " km/h"

/-- Lines 85–89 of `estimate_speed`: the label drawn on the box for this
detection — the speed text if the id is in `self.spd`, otherwise the class
name. -/
def box_label (n : ℕ → String) (s : EstState) (d : Detection) : String :=
  match s.spd d.track_id with
  | some v => speedText v
  | none => n d.cls

/-- The crossing test of lines 102–104: the segment from the stored previous
position to the current position, intersected with the region segment
(`direction` is `"known"` exactly when this is `true`). -/
def crossKnown (r : Seg) (s : EstState) (d : Detection) : Bool :=
  segIntersects (storedPP s d.track_id d.pos) d.pos r

/-- Lines 110–122 of `estimate_speed`: the speed-sampling branch. Given the
crossing outcome `known`, returns the new `trkd_ids`, the new `spd` map and
the sample `(vehicle_type, speed)` emitted on this detection, if any.
Note that the id is appended to `trkd_ids` before the
`time_difference > 0` test. -/
def samplePart (n : ℕ → String) (now : ℚ) (s : EstState) (d : Detection) (known : Bool) :
    List ℕ × (ℕ → Option ℚ) × Option (String × ℚ) :=
  if known = true ∧ d.track_id ∉ s.trkd_ids then
    if 0 < now - storedPT s d.track_id then
      (s.trkd_ids ++ [d.track_id],
       setMap s.spd d.track_id
         (some (ratAbs (d.pos.2 - (storedPP s d.track_id d.pos).2) / (now - storedPT s d.track_id))),
       some (n d.cls, ratAbs (d.pos.2 - (storedPP s d.track_id d.pos).2) / (now - storedPT s d.track_id)))
    else
      (s.trkd_ids ++ [d.track_id], s.spd, none)
  else
    (s.trkd_ids, s.spd, none)

/-- One iteration of the detection loop of `estimate_speed` (lines 76–125):
history update, conditional map initialization, label selection, crossing
test, the sampling branch, and the unconditional refresh of
`self.trk_pt[track_id]` and `self.trk_pp[track_id]` (lines 124–125).
Returns the new state, the label drawn for this detection, and the sample
emitted on this detection, if any. -/
def detStep (n : ℕ → String) (r : Seg) (now : ℚ) (s : EstState) (d : Detection) :
    EstState × String × Option (String × ℚ) :=
  let label := box_label n s d
  let res := samplePart n now s d (crossKnown r s d)
  ({ spd := res.2.1
     trkd_ids := res.1
     trk_pt := setMap (initPT s.trk_pt d.track_id) d.track_id (some now)
     trk_pp := setMap (initPP s.trk_pp d.track_id d.pos) d.track_id (some d.pos)
     track_hist := setMap s.track_hist d.track_id (s.track_hist d.track_id ++ [d.pos])
     speeds := s.speeds ++ res.2.2.toList },
   label, res.2.2)

/-- Fold of `detStep` over the detections of one frame. -/
def runDets (n : ℕ → String) (r : Seg) (now : ℚ) : EstState → List Detection → EstState
  | s, [] => s
  | s, d :: ds => runDets n r now (detStep n r now s d).1 ds

/-- One full call of `estimate_speed` on a frame. -/
def frameStep (n : ℕ → String) (r : Seg) (s : EstState) (f : Frame) : EstState :=
  runDets n r f.now s f.dets

/-- A sequence of `estimate_speed` calls over a list of frames. -/
def runFrames (n : ℕ → String) (r : Seg) : EstState → List Frame → EstState
  | s, [] => s
  | s, f :: fs => runFrames n r (frameStep n r s f) fs

/-- The number of detections of track id `id` in `ds` on which the loop body
emits a speed sample, starting from state `s` (samples attributable to the
id within one frame). -/
def detsCount (n : ℕ → String) (r : Seg) (now : ℚ) (id : ℕ) :
    EstState → List Detection → ℕ
  | _, [] => 0
  | s, d :: ds =>
    (if d.track_id = id ∧ ((detStep n r now s d).2.2).isSome = true then 1 else 0) +
      detsCount n r now id (detStep n r now s d).1 ds

/-- The number of speed samples attributable to track id `id` emitted over a
whole sequence of frames, starting from state `s`. -/
def framesCount (n : ℕ → String) (r : Seg) (id : ℕ) : EstState → List Frame → ℕ
  | _, [] => 0
  | s, f :: fs =>
    detsCount n r f.now id s f.dets + framesCount n r id (frameStep n r s f) fs

/-- Indicator of membership of a track id in a list of ids. -/
def indMem (id : ℕ) (l : List ℕ) : ℕ :=
  if id ∈ l then 1 else 0

/-- Internal state invariant: every id with recorded speed data is already
in `trkd_ids`. -/
def SpdInv (s : EstState) : Prop :=
  ∀ i, (s.spd i).isSome = true → i ∈ s.trkd_ids

/-! ### The report writer `save_speeds_to_file` -/

/-- Rounding to the nearest integer with ties to even, as Python float
formatting does on exactly representable values. -/
def roundHalfEven (q : ℚ) : ℤ :=
  if q - q.floor < 1 / 2 then q.floor
  else if (1 : ℚ) / 2 < q - q.floor then q.floor + 1
  else if q.floor % 2 = 0 then q.floor else q.floor + 1

/-- The Python fixed-point rendering `f"{v:.2f}"` for the exact rationals
that occur in the report. -/
def fmt2 (v : ℚ) : String :=
  (if v < 0 then "-" else "") ++
    toString ((roundHalfEven (ratAbs v * 100)).toNat / 100) ++ "." ++
    (if (roundHalfEven (ratAbs v * 100)).toNat % 100 < 10 then "0" else "") ++
    toString ((roundHalfEven (ratAbs v * 100)).toNat % 100)

/-- Python left-aligned padding `f"{s:<w}"`. -/
def padRight (s : String) (w : ℕ) : String :=
  s ++ String.mk (List.replicate (w - s.length) ' ')

/-- Python right-aligned padding `f"{s:>w}"`. -/
def padLeft (s : String) (w : ℕ) : String :=
  String.mk (List.replicate (w - s.length) ' ') ++ s

/-- Lines 168–174 of `save_speeds_to_file`: one report line per sample, with
the red marker exactly when `speed > 100`. -/
def sampleLine (vt : String) (v : ℚ) : String :=
  if 100 < v then padRight vt 13 ++ " " ++ padLeft (fmt2 v) 10 ++ " km/h ⭕\n"
  else padRight vt 15 ++ " " ++ padLeft (fmt2 v) 10 ++ " km/h\n"

/-- The `defaultdict(list)` update `vehicle_speeds[vehicle_type].append(speed)`:
extend the class's list if the key exists, otherwise create the key at the
end (first-seen class order). -/
def addSpeed (g : List (String × List ℚ)) (vt : String) (v : ℚ) :
    List (String × List ℚ) :=
  if vt ∈ g.map Prod.fst then
    g.map (fun p => if p.1 = vt then (p.1, p.2 ++ [v]) else p)
  else
    g ++ [(vt, [v])]

/-- The grouping of the full sample list by vehicle class built by the first
loop of `save_speeds_to_file` (insertion-ordered `defaultdict`). -/
def vehicle_speeds (sp : List (String × ℚ)) : List (String × List ℚ) :=
  sp.foldl (fun g q => addSpeed g q.1 q.2) []

/-- The per-class arithmetic means `sum(speeds) / len(speeds)` written by the
second loop of `save_speeds_to_file`, in first-seen class order. -/
def averageSpeeds (sp : List (String × ℚ)) : List (String × ℚ) :=
  (vehicle_speeds sp).map (fun p => (p.1, p.2.sum / (p.2.length : ℚ)))

/-- One average line `f"{vehicle_type:<15} {average_speed:>10.2f} km/h\n"`. -/
def avgLine (vt : String) (v : ℚ) : String :=
  padRight vt 15 ++ " " ++ padLeft (fmt2 v) 10 ++ " km/h\n"

/-- The full report text written by `save_speeds_to_file`: header, one line
per sample, a blank separator, then one average line per class. -/
def reportContent (sp : List (String × ℚ)) : String :=
  "Vehicle Type      Speed (km/h)\n" ++ "==============================\n" ++
  String.join (sp.map (fun q => sampleLine q.1 q.2)) ++
  "\nAverage Speeds:\n" ++ "==============================\n" ++
  String.join ((averageSpeeds sp).map (fun p => avgLine p.1 p.2))

/-- `save_speeds_to_file`, given the fresh run identifier `uuid.uuid4()` as a
string: returns the generated filename and the file content written. -/
def save_speeds_to_file (uid : String) (sp : List (String × ℚ)) : String × String :=
  ("output/speeds_" ++ uid ++ ".txt", reportContent sp)

/-! ### Concrete configurations and traces used by the claims -/

/-- A class-name mapping that sends every class index to `"car"`. -/
def names0 : ℕ → String := fun _ => "car"

/-- The reference region of the spec's end-to-end scenario,
`[(0,150),(1280,350)]`. -/
def regionSpec : Seg := ((0, 150), (1280, 350))

/-- A horizontal reference segment from `(0,0)` to `(10,0)`. -/
def regionFlat : Seg := ((0, 0), (10, 0))

/-- A single detection of track id 1 at position `(5, 0)`. -/
def d0 : Detection := ⟨1, 0, (5, 0)⟩

/-- The frames of the spec's end-to-end scenario: track 1 at `(640,100)` at
time 0, then at `(640,200)` at time 2. -/
def specFrames : List Frame :=
  [⟨0, [⟨1, 0, (640, 100)⟩]⟩, ⟨2, [⟨1, 0, (640, 200)⟩]⟩]

/-- The end-to-end scenario amended so that the motion segment actually
intersects the region segment: `(640,200)` at time 0, then `(640,300)` at
time 2 (the region segment passes through `(640,250)`). -/
def specFramesAmended : List Frame :=
  [⟨0, [⟨1, 0, (640, 200)⟩]⟩, ⟨2, [⟨1, 0, (640, 300)⟩]⟩]

/-- Frame 1 of the stalled-clock trace: track 1 at `(5,5)` at time 5 (no
crossing of `regionFlat`). -/
def stallF1 : Frame := ⟨5, [⟨1, 0, (5, 5)⟩]⟩

/-- The detection of frame 2 of the stalled-clock trace: track 1 at
`(5,-5)`, whose motion from `(5,5)` properly crosses `regionFlat`. -/
def stallD2 : Detection := ⟨1, 0, (5, -5)⟩

/-- Frame 2 of the stalled-clock trace: same wall-clock time 5 as frame 1. -/
def stallF2 : Frame := ⟨5, [stallD2]⟩

/-- Frame 3 of the stalled-clock trace: time has advanced to 6 and the
motion from `(5,-5)` back to `(5,5)` properly crosses `regionFlat` again. -/
def stallF3 : Frame := ⟨6, [⟨1, 0, (5, 5)⟩]⟩

/-- The two-frame stalled-clock trace. -/
def stallFrames : List Frame := [stallF1, stallF2]

/-- The three-frame stalled-clock trace. -/
def stallFrames3 : List Frame := [stallF1, stallF2, stallF3]

/-- The state after processing frame 1 of the stalled-clock trace. -/
def stallS1 : EstState := runFrames names0 regionFlat initState [stallF1]

/-- The state after processing frames 1 and 2 of the stalled-clock trace. -/
def stallS2 : EstState := runFrames names0 regionFlat initState stallFrames

/-- A state in which track id 1 is already marked as speed-estimated. -/
def sampledState : EstState := { initState with trkd_ids := [1] }

/-- A one-frame trace in which track 1 sits on the region segment at time 7
(so that the crossing fires on the very first frame for the id). -/
def c3Frames : List Frame := [⟨7, [d0]⟩]

/-- The state after processing `c3Frames`: `spd 1` holds the speed 0 sample
taken on the first frame. -/
def spdState : EstState := runFrames names0 regionFlat initState c3Frames

/-- A later frame extending `c3Frames`. -/
def c6Later : List Frame := [⟨8, [d0]⟩]

/-- A frame with two distinct track ids, used to check the bookkeeping
refresh. -/
def c7Frame : Frame := ⟨5, [⟨1, 0, (2, 3)⟩, ⟨2, 0, (4, 6)⟩]⟩

/-- The synthetic sample set of the spec's aggregate-correctness property. -/
def demoSamples : List (String × ℚ) := [("car", 50), ("car", 70), ("truck", 120)]

/-! ### Basic lemmas about the loop body -/

theorem setMap_self {α : Type} (m : ℕ → α) (k : ℕ) (v : α) : setMap m k v k = v := by
  simp [setMap]

theorem setMap_other {α : Type} (m : ℕ → α) (k : ℕ) (v : α) (i : ℕ) (h : i ≠ k) :
    setMap m k v i = m i := by
  simp [setMap, h]

theorem initPT_other (pt : ℕ → Option ℚ) (id i : ℕ) (h : i ≠ id) :
    initPT pt id i = pt i := by
  unfold initPT
  split_ifs <;> simp [setMap, h]

theorem initPP_other (pp : ℕ → Option Point) (id : ℕ) (cur : Point) (i : ℕ) (h : i ≠ id) :
    initPP pp id cur i = pp i := by
  unfold initPP
  split_ifs <;> simp [setMap, h]

theorem storedPT_of_none (s : EstState) (id : ℕ) (h : s.trk_pt id = none) :
    storedPT s id = 0 := by
  simp [storedPT, initPT, h, setMap]

theorem storedPP_of_none (s : EstState) (id : ℕ) (p : Point) (h : s.trk_pp id = none) :
    storedPP s id p = p := by
  simp [storedPP, initPP, h, setMap]

/-- The three possible outcomes of the sampling branch: guard false; guard
true but the clock did not advance; guard true with a sample. -/
theorem samplePart_cases (n : ℕ → String) (now : ℚ) (s : EstState) (d : Detection)
    (k : Bool) :
    samplePart n now s d k = (s.trkd_ids, s.spd, none) ∨
      (d.track_id ∉ s.trkd_ids ∧
        (samplePart n now s d k = (s.trkd_ids ++ [d.track_id], s.spd, none) ∨
          (0 < now - storedPT s d.track_id ∧
            samplePart n now s d k =
              (s.trkd_ids ++ [d.track_id],
               setMap s.spd d.track_id
                 (some (ratAbs (d.pos.2 - (storedPP s d.track_id d.pos).2) /
                   (now - storedPT s d.track_id))),
               some (n d.cls,
                 ratAbs (d.pos.2 - (storedPP s d.track_id d.pos).2) /
                   (now - storedPT s d.track_id)))))) := by
  unfold samplePart
  split_ifs with h1 h2
  · exact Or.inr ⟨h1.2, Or.inr ⟨h2, rfl⟩⟩
  · exact Or.inr ⟨h1.2, Or.inl rfl⟩
  · exact Or.inl rfl

theorem samplePart_of_mem (n : ℕ → String) (now : ℚ) (s : EstState) (d : Detection)
    (k : Bool) (h : d.track_id ∈ s.trkd_ids) :
    samplePart n now s d k = (s.trkd_ids, s.spd, none) := by
  unfold samplePart
  rw [if_neg (by simp [h])]

/-- The stalled-clock outcome: crossing, not yet estimated, but
`time_difference <= 0` — the id is still appended to `trkd_ids` and no
sample is emitted. -/
theorem samplePart_stall (n : ℕ → String) (now : ℚ) (s : EstState) (d : Detection)
    (k : Bool) (hmem : d.track_id ∉ s.trkd_ids) (hk : k = true)
    (htd : now - storedPT s d.track_id ≤ 0) :
    samplePart n now s d k = (s.trkd_ids ++ [d.track_id], s.spd, none) := by
  unfold samplePart
  rw [if_pos ⟨hk, hmem⟩, if_neg (not_lt.mpr htd)]

theorem detStep_trkd_eq (n : ℕ → String) (r : Seg) (now : ℚ) (s : EstState) (d : Detection) :
    (detStep n r now s d).1.trkd_ids = (samplePart n now s d (crossKnown r s d)).1 := rfl

theorem detStep_spd_eq (n : ℕ → String) (r : Seg) (now : ℚ) (s : EstState) (d : Detection) :
    (detStep n r now s d).1.spd = (samplePart n now s d (crossKnown r s d)).2.1 := rfl

theorem detStep_emit_eq (n : ℕ → String) (r : Seg) (now : ℚ) (s : EstState) (d : Detection) :
    (detStep n r now s d).2.2 = (samplePart n now s d (crossKnown r s d)).2.2 := rfl

theorem detStep_speeds_eq (n : ℕ → String) (r : Seg) (now : ℚ) (s : EstState) (d : Detection) :
    (detStep n r now s d).1.speeds =
      s.speeds ++ ((samplePart n now s d (crossKnown r s d)).2.2).toList := rfl

theorem detStep_label_eq (n : ℕ → String) (r : Seg) (now : ℚ) (s : EstState) (d : Detection) :
    (detStep n r now s d).2.1 = box_label n s d := rfl

theorem detStep_pt_eq (n : ℕ → String) (r : Seg) (now : ℚ) (s : EstState) (d : Detection) :
    (detStep n r now s d).1.trk_pt =
      setMap (initPT s.trk_pt d.track_id) d.track_id (some now) := rfl

theorem detStep_pp_eq (n : ℕ → String) (r : Seg) (now : ℚ) (s : EstState) (d : Detection) :
    (detStep n r now s d).1.trk_pp =
      setMap (initPP s.trk_pp d.track_id d.pos) d.track_id (some d.pos) := rfl

theorem detStep_trkd_mono (n : ℕ → String) (r : Seg) (now : ℚ) (s : EstState)
    (d : Detection) (i : ℕ) (h : i ∈ s.trkd_ids) :
    i ∈ (detStep n r now s d).1.trkd_ids := by
  rw [detStep_trkd_eq]
  rcases samplePart_cases n now s d (crossKnown r s d) with hc | ⟨_, hc | ⟨_, hc⟩⟩ <;>
    rw [hc] <;> simp [h]

theorem detStep_emit_mem (n : ℕ → String) (r : Seg) (now : ℚ) (s : EstState)
    (d : Detection) (h : ((detStep n r now s d).2.2).isSome = true) :
    d.track_id ∉ s.trkd_ids ∧ d.track_id ∈ (detStep n r now s d).1.trkd_ids := by
  rw [detStep_emit_eq] at h
  rw [detStep_trkd_eq]
  rcases samplePart_cases n now s d (crossKnown r s d) with hc | ⟨hmem, hc | ⟨htd, hc⟩⟩ <;>
    rw [hc] at h ⊢ <;> simp_all

theorem detStep_mem_none (n : ℕ → String) (r : Seg) (now : ℚ) (s : EstState)
    (d : Detection) (h : d.track_id ∈ s.trkd_ids) :
    (detStep n r now s d).2.2 = none := by
  rw [detStep_emit_eq, samplePart_of_mem n now s d (crossKnown r s d) h]

/-! ### Lemmas about whole runs -/

theorem runDets_trkd_mono (n : ℕ → String) (r : Seg) (now : ℚ) :
    ∀ (ds : List Detection) (s : EstState) (i : ℕ),
      i ∈ s.trkd_ids → i ∈ (runDets n r now s ds).trkd_ids
  | [], _, _, h => h
  | d :: ds, s, i, h =>
    runDets_trkd_mono n r now ds (detStep n r now s d).1 i
      (detStep_trkd_mono n r now s d i h)

theorem runFrames_trkd_mono (n : ℕ → String) (r : Seg) :
    ∀ (fs : List Frame) (s : EstState) (i : ℕ),
      i ∈ s.trkd_ids → i ∈ (runFrames n r s fs).trkd_ids
  | [], _, _, h => h
  | f :: fs, s, i, h =>
    runFrames_trkd_mono n r fs (frameStep n r s f) i
      (runDets_trkd_mono n r f.now f.dets s i h)

theorem runFrames_append (n : ℕ → String) (r : Seg) :
    ∀ (fs1 fs2 : List Frame) (s : EstState),
      runFrames n r s (fs1 ++ fs2) = runFrames n r (runFrames n r s fs1) fs2
  | [], _, _ => rfl
  | f :: fs1, fs2, s => by
    simp only [List.cons_append, runFrames]
    exact runFrames_append n r fs1 fs2 (frameStep n r s f)

theorem indMem_le_one (id : ℕ) (l : List ℕ) : indMem id l ≤ 1 := by
  unfold indMem
  split_ifs <;> simp

theorem indMem_mono (id : ℕ) (l1 l2 : List ℕ) (h : id ∈ l1 → id ∈ l2) :
    indMem id l1 ≤ indMem id l2 := by
  unfold indMem
  split_ifs with h1 h2 <;> simp_all

/-- Telescoping bound: the number of samples for `id` emitted over one
frame's detections is at most the change of the `trkd_ids` membership
indicator for `id`. -/
theorem detsCount_telescope (n : ℕ → String) (r : Seg) (now : ℚ) (id : ℕ) :
    ∀ (ds : List Detection) (s : EstState),
      detsCount n r now id s ds + indMem id s.trkd_ids ≤
        indMem id (runDets n r now s ds).trkd_ids
  | [], s => by simp [detsCount, runDets]
  | d :: ds, s => by
    have ih := detsCount_telescope n r now id ds (detStep n r now s d).1
    by_cases he : d.track_id = id ∧ ((detStep n r now s d).2.2).isSome = true
    · have hm := detStep_emit_mem n r now s d he.2
      have h0 : indMem id s.trkd_ids = 0 := by
        simp [indMem, he.1 ▸ hm.1]
      have h1 : indMem id (detStep n r now s d).1.trkd_ids = 1 := by
        simp [indMem, he.1 ▸ hm.2]
      rw [h1] at ih
      simp only [detsCount, if_pos he, runDets, h0]
      omega
    · have hmono : indMem id s.trkd_ids ≤ indMem id (detStep n r now s d).1.trkd_ids :=
        indMem_mono id _ _ (detStep_trkd_mono n r now s d id)
      simp only [detsCount, if_neg he, runDets]
      omega

/-- Telescoping bound over whole frame sequences. -/
theorem framesCount_telescope (n : ℕ → String) (r : Seg) (id : ℕ) :
    ∀ (fs : List Frame) (s : EstState),
      framesCount n r id s fs + indMem id s.trkd_ids ≤
        indMem id (runFrames n r s fs).trkd_ids
  | [], s => by simp [framesCount, runFrames]
  | f :: fs, s => by
    have ih := framesCount_telescope n r id fs (frameStep n r s f)
    have hd := detsCount_telescope n r f.now id f.dets s
    have h1 := indMem_le_one id (frameStep n r s f).trkd_ids
    simp only [framesCount, runFrames, frameStep] at *
    omega

/-- Once an id is in `trkd_ids`, no sample is ever emitted for it again. -/
theorem framesCount_zero_of_mem (n : ℕ → String) (r : Seg) (id : ℕ) (s : EstState)
    (fs : List Frame) (h : id ∈ s.trkd_ids) : framesCount n r id s fs = 0 := by
  have ht := framesCount_telescope n r id fs s
  have h2 := indMem_le_one id (runFrames n r s fs).trkd_ids
  have h1 : indMem id s.trkd_ids = 1 := by simp [indMem, h]
  omega

/-! ### The speed-data invariant and persistence -/

theorem spdInv_init : SpdInv initState := by
  intro i hi
  simp [initState] at hi

theorem detStep_spdInv (n : ℕ → String) (r : Seg) (now : ℚ) (s : EstState)
    (d : Detection) (hinv : SpdInv s) : SpdInv (detStep n r now s d).1 := by
  intro i hi
  rw [detStep_spd_eq] at hi
  rw [detStep_trkd_eq]
  rcases samplePart_cases n now s d (crossKnown r s d) with hc | ⟨hmem, hc | ⟨htd, hc⟩⟩ <;>
    rw [hc] at hi ⊢ <;> dsimp only at hi ⊢
  · exact hinv i hi
  · exact List.mem_append_left _ (hinv i hi)
  · by_cases he : i = d.track_id
    · simp [he]
    · rw [setMap_other _ _ _ _ he] at hi
      exact List.mem_append_left _ (hinv i hi)

theorem detStep_spd_persist (n : ℕ → String) (r : Seg) (now : ℚ) (s : EstState)
    (d : Detection) (i : ℕ) (v : ℚ) (hinv : SpdInv s) (h : s.spd i = some v) :
    (detStep n r now s d).1.spd i = some v := by
  rw [detStep_spd_eq]
  rcases samplePart_cases n now s d (crossKnown r s d) with hc | ⟨hmem, hc | ⟨htd, hc⟩⟩ <;>
    rw [hc] <;> dsimp only
  · exact h
  · exact h
  · have hne : i ≠ d.track_id := by
      intro he
      exact hmem (he ▸ hinv i (by rw [h]; rfl))
    rw [setMap_other _ _ _ _ hne]
    exact h

theorem runDets_spdInv (n : ℕ → String) (r : Seg) (now : ℚ) :
    ∀ (ds : List Detection) (s : EstState), SpdInv s → SpdInv (runDets n r now s ds)
  | [], _, h => h
  | d :: ds, s, h =>
    runDets_spdInv n r now ds (detStep n r now s d).1 (detStep_spdInv n r now s d h)

theorem runDets_spd_persist (n : ℕ → String) (r : Seg) (now : ℚ) :
    ∀ (ds : List Detection) (s : EstState) (i : ℕ) (v : ℚ),
      SpdInv s → s.spd i = some v → (runDets n r now s ds).spd i = some v
  | [], _, _, _, _, h => h
  | d :: ds, s, i, v, hinv, h =>
    runDets_spd_persist n r now ds (detStep n r now s d).1 i v
      (detStep_spdInv n r now s d hinv) (detStep_spd_persist n r now s d i v hinv h)

theorem runFrames_spdInv (n : ℕ → String) (r : Seg) :
    ∀ (fs : List Frame) (s : EstState), SpdInv s → SpdInv (runFrames n r s fs)
  | [], _, h => h
  | f :: fs, s, h =>
    runFrames_spdInv n r fs (frameStep n r s f) (runDets_spdInv n r f.now f.dets s h)

theorem runFrames_spd_persist (n : ℕ → String) (r : Seg) :
    ∀ (fs : List Frame) (s : EstState) (i : ℕ) (v : ℚ),
      SpdInv s → s.spd i = some v → (runFrames n r s fs).spd i = some v
  | [], _, _, _, _, h => h
  | f :: fs, s, i, v, hinv, h =>
    runFrames_spd_persist n r fs (frameStep n r s f) i v
      (runDets_spdInv n r f.now f.dets s hinv)
      (runDets_spd_persist n r f.now f.dets s i v hinv h)

/-! ### Non-negativity of recorded speeds -/

theorem ratAbs_nonneg (v : ℚ) : 0 ≤ ratAbs v := by
  unfold ratAbs
  split_ifs with h
  · linarith
  · linarith

theorem detStep_speeds_nonneg (n : ℕ → String) (r : Seg) (now : ℚ) (s : EstState)
    (d : Detection) (h : ∀ p ∈ s.speeds, (0:ℚ) ≤ p.2) :
    ∀ p ∈ (detStep n r now s d).1.speeds, (0:ℚ) ≤ p.2 := by
  rw [detStep_speeds_eq]
  intro p hp
  rcases List.mem_append.mp hp with h1 | h2
  · exact h p h1
  · rcases samplePart_cases n now s d (crossKnown r s d) with hc | ⟨hmem, hc | ⟨htd, hc⟩⟩ <;>
      rw [hc] at h2
    · simp at h2
    · simp at h2
    · simp only [Option.toList_some, List.mem_singleton] at h2
      subst h2
      exact div_nonneg (ratAbs_nonneg _) (le_of_lt htd)

theorem runDets_speeds_nonneg (n : ℕ → String) (r : Seg) (now : ℚ) :
    ∀ (ds : List Detection) (s : EstState),
      (∀ p ∈ s.speeds, (0:ℚ) ≤ p.2) → ∀ p ∈ (runDets n r now s ds).speeds, (0:ℚ) ≤ p.2
  | [], _, h => h
  | d :: ds, s, h =>
    runDets_speeds_nonneg n r now ds (detStep n r now s d).1
      (detStep_speeds_nonneg n r now s d h)

theorem runFrames_speeds_nonneg (n : ℕ → String) (r : Seg) :
    ∀ (fs : List Frame) (s : EstState),
      (∀ p ∈ s.speeds, (0:ℚ) ≤ p.2) → ∀ p ∈ (runFrames n r s fs).speeds, (0:ℚ) ≤ p.2
  | [], _, h => h
  | f :: fs, s, h =>
    runFrames_speeds_nonneg n r fs (frameStep n r s f)
      (runDets_speeds_nonneg n r f.now f.dets s h)

/-! ### The unconditional bookkeeping refresh of lines 124–125 -/

theorem detStep_pt_self (n : ℕ → String) (r : Seg) (now : ℚ) (s : EstState)
    (d : Detection) : (detStep n r now s d).1.trk_pt d.track_id = some now := by
  rw [detStep_pt_eq]
  exact setMap_self _ _ _

theorem detStep_pp_self (n : ℕ → String) (r : Seg) (now : ℚ) (s : EstState)
    (d : Detection) : (detStep n r now s d).1.trk_pp d.track_id = some d.pos := by
  rw [detStep_pp_eq]
  exact setMap_self _ _ _

theorem detStep_pt_other (n : ℕ → String) (r : Seg) (now : ℚ) (s : EstState)
    (d : Detection) (i : ℕ) (h : i ≠ d.track_id) :
    (detStep n r now s d).1.trk_pt i = s.trk_pt i := by
  rw [detStep_pt_eq, setMap_other _ _ _ _ h, initPT_other _ _ _ h]

theorem detStep_pp_other (n : ℕ → String) (r : Seg) (now : ℚ) (s : EstState)
    (d : Detection) (i : ℕ) (h : i ≠ d.track_id) :
    (detStep n r now s d).1.trk_pp i = s.trk_pp i := by
  rw [detStep_pp_eq, setMap_other _ _ _ _ h, initPP_other _ _ _ _ h]

theorem runDets_pt_pp_notin (n : ℕ → String) (r : Seg) (now : ℚ) (i : ℕ) :
    ∀ (ds : List Detection) (s : EstState), i ∉ ds.map Detection.track_id →
      (runDets n r now s ds).trk_pt i = s.trk_pt i ∧
        (runDets n r now s ds).trk_pp i = s.trk_pp i
  | [], _, _ => ⟨rfl, rfl⟩
  | d :: ds, s, h => by
    simp only [List.map_cons, List.mem_cons, not_or] at h
    simp only [runDets]
    have ih := runDets_pt_pp_notin n r now i ds (detStep n r now s d).1 h.2
    exact ⟨ih.1.trans (detStep_pt_other n r now s d i h.1),
           ih.2.trans (detStep_pp_other n r now s d i h.1)⟩

theorem runDets_refresh (n : ℕ → String) (r : Seg) (now : ℚ) :
    ∀ (ds : List Detection) (s : EstState), (ds.map Detection.track_id).Nodup →
      ∀ d ∈ ds, (runDets n r now s ds).trk_pt d.track_id = some now ∧
        (runDets n r now s ds).trk_pp d.track_id = some d.pos
  | [], _, _, d, hd => absurd hd (by simp)
  | d0 :: ds, s, hnd, d, hd => by
    simp only [List.map_cons, List.nodup_cons] at hnd
    rcases List.mem_cons.mp hd with he | ht
    · subst he
      simp only [runDets]
      have hp := runDets_pt_pp_notin n r now d.track_id ds (detStep n r now s d).1 hnd.1
      exact ⟨hp.1.trans (detStep_pt_self n r now s d),
             hp.2.trans (detStep_pp_self n r now s d)⟩
    · simp only [runDets]
      exact runDets_refresh n r now ds (detStep n r now s d0).1 hnd.2 d ht

/-! ### Lemmas about the report writer -/

theorem addSpeed_ne_nil (g : List (String × List ℚ)) (vt : String) (v : ℚ)
    (h : ∀ p ∈ g, p.2 ≠ []) : ∀ p ∈ addSpeed g vt v, p.2 ≠ [] := by
  unfold addSpeed
  split_ifs with hin <;> intro p hp
  · rcases List.mem_map.mp hp with ⟨q, hq, he⟩
    by_cases hq1 : q.1 = vt
    · rw [if_pos hq1] at he
      rw [← he]
      simp
    · rw [if_neg hq1] at he
      rw [← he]
      exact h q hq
  · rcases List.mem_append.mp hp with h1 | h2
    · exact h p h1
    · simp only [List.mem_singleton] at h2
      subst h2
      simp

theorem foldl_addSpeed_ne_nil :
    ∀ (sp : List (String × ℚ)) (g : List (String × List ℚ)),
      (∀ p ∈ g, p.2 ≠ []) →
        ∀ p ∈ sp.foldl (fun g q => addSpeed g q.1 q.2) g, p.2 ≠ []
  | [], _, hg => hg
  | q :: sp, g, hg => by
    simp only [List.foldl_cons]
    exact foldl_addSpeed_ne_nil sp (addSpeed g q.1 q.2) (addSpeed_ne_nil g q.1 q.2 hg)

/-! ### The claims -/

/-- C1: for every track id, across any sequence of frames processed by
`estimate_speed`, at most one speed sample attributable to that id is ever
emitted (and each append to the `speeds` list is exactly the emitted
sample), and once the id is in `trkd_ids` — marked sampled — no further
speed computation occurs for it on any later frame. -/
theorem c1_at_most_once :
    ∀ (n : ℕ → String) (r : Seg) (fs : List Frame) (id : ℕ),
      framesCount n r id initState fs ≤ 1 ∧
      (∀ (s : EstState) (fs2 : List Frame), id ∈ s.trkd_ids →
        framesCount n r id s fs2 = 0) ∧
      (∀ (now : ℚ) (s : EstState) (d : Detection),
        (detStep n r now s d).1.speeds =
          s.speeds ++ ((detStep n r now s d).2.2).toList) := by
  intro n r fs id
  refine ⟨?_, ?_, ?_⟩
  · have ht := framesCount_telescope n r id fs initState
    have h2 := indMem_le_one id (runFrames n r initState fs).trkd_ids
    have h0 : indMem id initState.trkd_ids = 0 := by simp [indMem, initState]
    omega
  · intro s fs2 h
    exact framesCount_zero_of_mem n r id s fs2 h
  · intro now s d
    exact detStep_speeds_eq n r now s d

theorem c1_at_most_once_witness :
    framesCount names0 regionFlat 1 initState stallFrames3 ≤ 1 ∧
    framesCount names0 regionFlat 1 sampledState stallFrames3 = 0 :=
  ⟨(c1_at_most_once names0 regionFlat stallFrames3 1).1,
   (c1_at_most_once names0 regionFlat stallFrames3 1).2.1 sampledState stallFrames3
     (by decide)⟩

/-- C2 (counterexample): on the stalled-clock trace, frame 2 has the
crossing predicate true for the not-yet-sampled id 1 with non-positive
elapsed time; no sample is produced, but — contrary to the claim — the id
transitions into `trkd_ids` (the terminal sampled state) and never produces
a sample on any later frame, although frame 3 crosses again with positive
elapsed time. -/
theorem c2_stall_counterexample :
    crossKnown regionFlat stallS1 stallD2 = true ∧
    1 ∉ stallS1.trkd_ids ∧
    (5:ℚ) - storedPT stallS1 1 ≤ 0 ∧
    1 ∈ stallS2.trkd_ids ∧
    (runFrames names0 regionFlat initState stallFrames3).speeds = [] := by
  decide

/-- C2 (amended): if the crossing predicate is true for a not-yet-sampled
track id on a frame and the elapsed time since the stored previous
timestamp is not positive, then no speed sample is produced on that frame
and the speed data and speeds list are unchanged; however the id is
appended to `trkd_ids`, so it is not eligible to produce a sample on any
later frame. -/
theorem c2_stall_amended :
    ∀ (n : ℕ → String) (r : Seg) (now : ℚ) (s : EstState) (d : Detection),
      d.track_id ∉ s.trkd_ids →
      crossKnown r s d = true →
      now - storedPT s d.track_id ≤ 0 →
        (detStep n r now s d).2.2 = none ∧
        (detStep n r now s d).1.speeds = s.speeds ∧
        (detStep n r now s d).1.spd = s.spd ∧
        d.track_id ∈ (detStep n r now s d).1.trkd_ids ∧
        ∀ fs : List Frame, framesCount n r d.track_id (detStep n r now s d).1 fs = 0 := by
  intro n r now s d hmem hcross htd
  have hsp := samplePart_stall n now s d (crossKnown r s d) hmem hcross htd
  have htrkd : (detStep n r now s d).1.trkd_ids = s.trkd_ids ++ [d.track_id] := by
    rw [detStep_trkd_eq, hsp]
  refine ⟨?_, ?_, ?_, ?_, ?_⟩
  · rw [detStep_emit_eq, hsp]
  · rw [detStep_speeds_eq, hsp]
    simp
  · rw [detStep_spd_eq, hsp]
  · rw [htrkd]
    simp
  · intro fs
    refine framesCount_zero_of_mem n r d.track_id _ fs ?_
    rw [htrkd]
    simp

theorem c2_stall_amended_witness :
    (detStep names0 regionFlat 5 stallS1 stallD2).2.2 = none ∧
    (detStep names0 regionFlat 5 stallS1 stallD2).1.speeds = stallS1.speeds ∧
    (detStep names0 regionFlat 5 stallS1 stallD2).1.spd = stallS1.spd ∧
    stallD2.track_id ∈ (detStep names0 regionFlat 5 stallS1 stallD2).1.trkd_ids ∧
    framesCount names0 regionFlat stallD2.track_id
      (detStep names0 regionFlat 5 stallS1 stallD2).1 [stallF3] = 0 := by
  have h := c2_stall_amended names0 regionFlat 5 stallS1 stallD2
    (by decide) (by decide) (by decide)
  exact ⟨h.1, h.2.1, h.2.2.1, h.2.2.2.1, h.2.2.2.2 [stallF3]⟩

/-- C3 (counterexample): the stored previous timestamp of a first-seen
track id is initialized to 0, not to the first-seen time: with first-seen
time 7 the initialized value is 0 and 0 ≠ 7; consequently a sample (of
speed 0, over the spurious elapsed time 7 − 0) is emitted on the very first
frame when the id sits on the region segment — impossible had the timestamp
been initialized to the first-seen time. -/
theorem c3_init_counterexample :
    initState.trk_pt 1 = none ∧
    storedPT initState 1 = 0 ∧
    (0:ℚ) ≠ 7 ∧
    (detStep names0 regionFlat 7 initState d0).2.2 = some ("car", 0) := by
  decide

/-- C3 (amended): on the first frame in which a track id is observed, its
stored previous timestamp is initialized to zero — not to the first-seen
time — and its stored previous position is initialized to the current
position. -/
theorem c3_init_amended :
    ∀ (s : EstState) (id : ℕ) (p : Point),
      (s.trk_pt id = none → storedPT s id = 0) ∧
      (s.trk_pp id = none → storedPP s id p = p) :=
  fun s id p => ⟨storedPT_of_none s id, storedPP_of_none s id p⟩

theorem c3_init_amended_witness :
    storedPT initState 1 = 0 ∧ storedPP initState 1 (3, 4) = (3, 4) :=
  ⟨(c3_init_amended initState 1 (3, 4)).1 rfl, (c3_init_amended initState 1 (3, 4)).2 rfl⟩

/-- C4 (counterexample): in the spec's end-to-end scenario — region
`[(0,150),(1280,350)]`, positions `(640,100)` at time 0 and `(640,200)` at
time 2 — the motion segment does not intersect the region segment (which
passes through `(640,250)`), so no sample at all is recorded, not one
sample of speed 50. -/
theorem c4_formula_counterexample :
    (runFrames names0 regionSpec initState specFrames).speeds = [] ∧
    (runFrames names0 regionSpec initState specFrames).speeds ≠ [("car", 50)] := by
  decide

/-- C4 (amended): whenever a sample is emitted, its class is the track's
class name and its speed is the absolute vertical displacement between the
current and stored previous positions divided by the (positive) elapsed
time since the stored previous timestamp; the end-to-end scenario holds
once the second position is amended to `(640,300)` so the motion crosses
the region segment: exactly one sample of speed `|300 − 200| / 2 = 50`
under the track's class. -/
theorem c4_formula_amended :
    (∀ (n : ℕ → String) (r : Seg) (now : ℚ) (s : EstState) (d : Detection)
        (c : String) (v : ℚ),
      (detStep n r now s d).2.2 = some (c, v) →
        c = n d.cls ∧
        0 < now - storedPT s d.track_id ∧
        v = ratAbs (d.pos.2 - (storedPP s d.track_id d.pos).2) /
              (now - storedPT s d.track_id)) ∧
    (runFrames names0 regionSpec initState specFramesAmended).speeds = [("car", 50)] := by
  constructor
  · intro n r now s d c v h
    rw [detStep_emit_eq] at h
    rcases samplePart_cases n now s d (crossKnown r s d) with hc | ⟨hmem, hc | ⟨htd, hc⟩⟩ <;>
      rw [hc] at h <;> dsimp only at h
    · exact absurd h (by simp)
    · exact absurd h (by simp)
    · simp only [Option.some.injEq, Prod.mk.injEq] at h
      exact ⟨h.1.symm, htd, h.2.symm⟩
  · decide

theorem c4_formula_amended_witness :
    ("car" = names0 d0.cls ∧
      0 < (7:ℚ) - storedPT initState d0.track_id ∧
      (0:ℚ) = ratAbs (d0.pos.2 - (storedPP initState d0.track_id d0.pos).2) /
        ((7:ℚ) - storedPT initState d0.track_id)) ∧
    (runFrames names0 regionSpec initState specFramesAmended).speeds = [("car", 50)] :=
  ⟨c4_formula_amended.1 names0 regionFlat 7 initState d0 "car" 0 (by decide),
   c4_formula_amended.2⟩

/-- C5: every speed sample ever appended to the `speeds` list is
non-negative, for every sequence of input frames and positions. -/
theorem c5_speeds_nonneg :
    ∀ (n : ℕ → String) (r : Seg) (fs : List Frame),
      ∀ p ∈ (runFrames n r initState fs).speeds, (0:ℚ) ≤ p.2 := by
  intro n r fs
  exact runFrames_speeds_nonneg n r fs initState (by simp [initState])

theorem c5_speeds_nonneg_witness :
    ("car", (50:ℚ)) ∈ (runFrames names0 regionSpec initState specFramesAmended).speeds ∧
    (0:ℚ) ≤ (("car", (50:ℚ)) : String × ℚ).2 :=
  ⟨by decide, c5_speeds_nonneg names0 regionSpec specFramesAmended ("car", 50) (by decide)⟩

/-- C6: the label drawn for a track id is its class name on every frame
processed before a speed is recorded for the id, and the rendering of the
recorded speed on every frame processed after; the recorded speed value
persists unchanged under any extension of the run, so the label never
reverts from a speed back to the class name. -/
theorem c6_label_policy :
    (∀ (n : ℕ → String) (r : Seg) (now : ℚ) (s : EstState) (d : Detection),
      s.spd d.track_id = none → (detStep n r now s d).2.1 = n d.cls) ∧
    (∀ (n : ℕ → String) (r : Seg) (now : ℚ) (s : EstState) (d : Detection) (v : ℚ),
      s.spd d.track_id = some v → (detStep n r now s d).2.1 = speedText v) ∧
    (∀ (n : ℕ → String) (r : Seg) (fs fs2 : List Frame) (i : ℕ) (v : ℚ),
      (runFrames n r initState fs).spd i = some v →
        (runFrames n r initState (fs ++ fs2)).spd i = some v) := by
  refine ⟨?_, ?_, ?_⟩
  · intro n r now s d h
    rw [detStep_label_eq]
    simp [box_label, h]
  · intro n r now s d v h
    rw [detStep_label_eq]
    simp [box_label, h]
  · intro n r fs fs2 i v h
    rw [runFrames_append]
    exact runFrames_spd_persist n r fs2 _ i v
      (runFrames_spdInv n r fs initState spdInv_init) h

theorem c6_label_policy_witness :
    (detStep names0 regionFlat 7 initState d0).2.1 = names0 d0.cls ∧
    (detStep names0 regionFlat 8 spdState d0).2.1 = speedText 0 ∧
    (runFrames names0 regionFlat initState (c3Frames ++ c6Later)).spd 1 = some 0 :=
  ⟨c6_label_policy.1 names0 regionFlat 7 initState d0 (by decide),
   c6_label_policy.2.1 names0 regionFlat 8 spdState d0 0 (by decide),
   c6_label_policy.2.2 names0 regionFlat c3Frames c6Later 1 0 (by decide)⟩

/-- C7: after `estimate_speed` processes a frame whose detections carry
distinct track ids, every id appearing in the frame has its stored previous
timestamp equal to the frame's wall-clock time and its stored previous
position equal to its current position — regardless of whether the crossing
predicate held and regardless of whether the id is already sampled. -/
theorem c7_bookkeeping_refresh :
    ∀ (n : ℕ → String) (r : Seg) (s : EstState) (f : Frame),
      (f.dets.map Detection.track_id).Nodup →
      ∀ d ∈ f.dets,
        (frameStep n r s f).trk_pt d.track_id = some f.now ∧
        (frameStep n r s f).trk_pp d.track_id = some d.pos := by
  intro n r s f hnd d hd
  exact runDets_refresh n r f.now f.dets s hnd d hd

theorem c7_bookkeeping_refresh_witness :
    (frameStep names0 regionFlat sampledState c7Frame).trk_pt 1 = some 5 ∧
    (frameStep names0 regionFlat sampledState c7Frame).trk_pp 1 = some (2, 3) :=
  c7_bookkeeping_refresh names0 regionFlat sampledState c7Frame (by decide)
    ⟨1, 0, (2, 3)⟩ (by decide)

/-- C8: the report groups samples by vehicle class preserving first-seen
class order and computes each class's arithmetic mean; a sample line is
marked exactly when its speed exceeds 100. On
`[("car",50),("car",70),("truck",120)]` the groups are car ↦ [50,70] and
truck ↦ [120], the averages are car ↦ 60 (rendered "60.00") and
truck ↦ 120 (rendered "120.00"), and only the truck line carries the
marker. -/
theorem c8_report_aggregation :
    vehicle_speeds demoSamples = [("car", [50, 70]), ("truck", [120])] ∧
    averageSpeeds demoSamples = [("car", 60), ("truck", 120)] ∧
    fmt2 60 = "60.00" ∧ fmt2 120 = "120.00" ∧
    demoSamples.map (fun q => decide (100 < q.2)) = [false, false, true] ∧
    '⭕' ∈ (sampleLine "truck" 120).data ∧
    '⭕' ∉ (sampleLine "car" 50).data ∧
    '⭕' ∉ (sampleLine "car" 70).data := by
  decide

/-- C9: the report content written by `save_speeds_to_file` depends only on
the speeds list — two invocations with different run identifiers produce
identical content, differing only in the generated filename. -/
theorem c9_report_deterministic :
    ∀ (uid1 uid2 : String) (sp : List (String × ℚ)),
      (save_speeds_to_file uid1 sp).2 = (save_speeds_to_file uid2 sp).2 ∧
      (save_speeds_to_file uid1 sp).1 = "output/speeds_" ++ uid1 ++ ".txt" :=
  fun _ _ _ => ⟨rfl, rfl⟩

/-- C10: every vehicle class that reaches the average-computation step of
`save_speeds_to_file` has a non-empty list of speeds — a class key is
created only by appending a sample — so the per-class mean's division by
the list length never divides by zero, for every speeds list. -/
theorem c10_average_no_empty_class :
    ∀ (sp : List (String × ℚ)) (p : String × List ℚ), p ∈ vehicle_speeds sp →
      p.2 ≠ [] ∧ 0 < p.2.length ∧ ((p.2.length : ℚ)) ≠ 0 := by
  intro sp p hp
  have h := foldl_addSpeed_ne_nil sp [] (by simp) p hp
  exact ⟨h, List.length_pos.mpr h, Nat.cast_ne_zero.mpr (List.length_pos.mpr h).ne'⟩

theorem c10_average_no_empty_class_witness :
    (("car", ([50, 70] : List ℚ)) ∈ vehicle_speeds demoSamples) ∧
    ((("car", ([50, 70] : List ℚ)) : String × List ℚ).2 ≠ [] ∧
      0 < (("car", ([50, 70] : List ℚ)) : String × List ℚ).2.length ∧
      (((("car", ([50, 70] : List ℚ)) : String × List ℚ).2.length : ℚ)) ≠ 0) :=
  ⟨by decide, c10_average_no_empty_class demoSamples ("car", [50, 70]) (by decide)⟩

end SpeedEst
